import Mathlib

/-!
# Persons service: repository and error classifier

A shallow embedding of `internal/pkg/errors`, `internal/models`, `internal/persons`,
`internal/persons/repository/pgx` and the handlers `list` and `partialUpdate` of
`internal/persons/delivery/http`.

* Go `error` values are the inductive type `GoError`; a nil error is `none`.
* The data store is a record of three calls (`QueryRow`, `Query`, `Exec`) over an explicit
  store state, so that "no statement is executed" is "the state is unchanged".
* Go `int` and `int64` are `Int`: the code only moves these values around and never
  computes with them.
-/

namespace DsLab1

/-! ## Error values -/

/-- A non-nil Go `error`. The first four constructors are the package-level values of
`internal/pkg/errors/errors.go`, `ErrNoRows` is `sql.ErrNoRows`, `other` is any further
error value, kept by its text, that has no `Cause` method and whose chain holds none of the
five values before (driver and parse errors), and `withMessage`, `withStack` are the two
wrappers of `github.com/pkg/errors`. -/
inductive GoError where
  | ErrDb
  | ErrPersonNotFound
  | ErrPersonAlreadyExists
  | ErrReadBody
  | ErrNoRows
  | other (msg : String)
  | withMessage (cause : GoError) (msg : String)
  | withStack (err : GoError)
  deriving DecidableEq, Repr

namespace GoError

/-- The `Error()` method: the text of an error value. -/
def Error : GoError → String
  | ErrDb => "db error"
  | ErrPersonNotFound => "person not found"
  | ErrPersonAlreadyExists => "person already exists"
  | ErrReadBody => "read request body error"
  | ErrNoRows => "sql: no rows in result set"
  | other msg => msg
  | withMessage cause msg => msg ++ ": " ++ cause.Error
  | withStack err => err.Error

end GoError

open GoError

/-- The function `errors.Wrap(err, message)` of `github.com/pkg/errors` on a non-nil `err`:
a `withStack` around a `withMessage` around `err`. -/
def Wrap (err : GoError) (message : String) : GoError :=
  withStack (withMessage err message)

/-- The function `errors.Is(err, target)`: `err` or an error of its `Unwrap` chain is
`target`. -/
def Is : GoError → GoError → Bool
  | withMessage cause msg, target => decide (withMessage cause msg = target) || Is cause target
  | withStack err, target => decide (withStack err = target) || Is err target
  | err, target => decide (err = target)

/-- The function `errors.Cause(err)` of `github.com/pkg/errors`: the innermost error of the
`Cause` chain. -/
def Cause : GoError → GoError
  | withMessage cause _ => Cause cause
  | withStack err => Cause err
  | err => err

/-! ## Error classifier (`internal/pkg/errors/http_codes.go`) -/

def StatusBadRequest : Nat := 400
def StatusNotFound : Nat := 404
def StatusConflict : Nat := 409
def StatusInternalServerError : Nat := 500

/-- The map `httpCodes`, as its list of entries. -/
def httpCodes : List (GoError × Nat) :=
  [ (ErrDb, StatusInternalServerError),
    (ErrPersonNotFound, StatusNotFound),
    (ErrPersonAlreadyExists, StatusConflict),
    (ErrReadBody, StatusBadRequest) ]

/-- The function `GetHTTPCodeByError`: the entry of `httpCodes` under the key `err` itself,
and 500 when there is none. -/
def GetHTTPCodeByError (err : GoError) : Nat × Bool :=
  let (httpCode, exist) :=
    match httpCodes.lookup err with
    | some code => (code, true)
    | none => (0, false)
  let httpCode := if !exist then StatusInternalServerError else httpCode
  (httpCode, exist)

/-- Modelled from the spec: the unwrapping step of the error handler `HandleError` of
`internal/pkg/http`, which is called by every handler of `delivery.go` and is not part of the
sources at hand. The spec says that "wrapped errors must be unwrapped to their root domain
kind before lookup (classification operates on the innermost domain error value, ignoring any
added context)": the classification of an error is the lookup of its innermost cause. -/
def classify (err : GoError) : Nat × Bool :=
  GetHTTPCodeByError (Cause err)

/-! ## Entity and parameters (`internal/models`, `internal/persons`) -/

/-- The struct `models.Person`. -/
structure Person where
  ID : Int
  Name : String
  Age : Int
  Address : String
  Work : String
  deriving DecidableEq, Repr

/-- The value `new(models.Person)`: all fields zero. -/
def Person.zero : Person := ⟨0, "", 0, "", ""⟩

/-- The struct `persons.CreateParams`. -/
structure CreateParams where
  Name : String
  Age : Int
  Address : String
  Work : String
  deriving DecidableEq, Repr

/-- The struct `persons.PartialUpdateParams`; a nil pointer field is `none`. -/
structure PartialUpdateParams where
  ID : Int
  Name : Option String
  Age : Option Int
  Address : Option String
  Work : Option String
  deriving DecidableEq, Repr

/-! ## The data store -/

/-- A value of Go type `any` handed to the store as a statement argument. `strPtr s` is a
non-nil `*string` whose pointee is `s`. -/
inductive Arg where
  | str (s : String)
  | int (n : Int)
  | int64 (n : Int)
  | strPtr (s : String)
  deriving DecidableEq, Repr

/-- The argument as `database/sql` binds it: a non-nil pointer stands for its pointee. -/
def Arg.deref : Arg → Arg
  | Arg.strPtr s => Arg.str s
  | a => a

/-- A row of the store, already converted to the five destination types of `Scan`:
the columns in the order of the `SELECT`/`RETURNING` list. -/
abbrev Row : Type := Int × String × Int × String × String

/-- The rows of a `*sql.Rows` in store order, each with the outcome of its `Scan`. -/
abbrev Rows : Type := List (Except GoError Row)

/-- A slice `[]models.Person`. -/
abbrev Persons : Type := List Person

/-- A statement as the store receives it: its text and its arguments. -/
abbrev Call : Type := String × List Arg

/-- The three calls the repository makes on `*sql.DB`, over a store state `σ`.

* `QueryRow` is `db.QueryRow(cmd, args...)` followed by the `Scan` of its row: the scanned
  row, or the error `Scan` returns.
* `Query` is `db.Query(cmd, args...)`: an error, or the rows in store order, each one with
  the outcome of its `Scan`.
* `Exec` is `db.Exec(cmd, args...)`: an error, or the number `RowsAffected()` gives (the
  error of `RowsAffected()` is discarded by the code). -/
structure Store (σ : Type) where
  QueryRow : σ → String → List Arg → Except GoError Row × σ
  Query : σ → String → List Arg → Except GoError Rows × σ
  Exec : σ → String → List Arg → Except GoError Int × σ

/-- A store in the manner of `sqlmock`: its state is the list of the statements executed so
far, and its three answers are fixed in advance. -/
def recorder (row : Except GoError Row) (rows : Except GoError Rows)
    (result : Except GoError Int) : Store (List Call) where
  QueryRow := fun log cmd args => (row, log ++ [(cmd, args)])
  Query := fun log cmd args => (rows, log ++ [(cmd, args)])
  Exec := fun log cmd args => (result, log ++ [(cmd, args)])

/-! ## Repository (`internal/persons/repository/pgx/repository.go`) -/

def createCmd : String :=
  "\n\tINSERT INTO persons (name, age, address, work) \n\tVALUES ($1, $2, $3, $4)\n\tRETURNING id, name, age, address, work;"

def getCmd : String :=
  "\n\tSELECT id, name, age, address, work\n\tFROM persons\n\tWHERE id = $1;"

def listCmd : String :=
  "\n\tSELECT id, name, age, address, work\n\tFROM persons\n\toffset $1"

/-- The format `fullUpdateCmd` applied by `fmt.Sprintf` to a string and an integer. -/
def fullUpdateCmd (setValuesPart : String) (d : Nat) : String :=
  "\n\tUPDATE persons\n\tSET " ++ setValuesPart ++ "\n\tWHERE id = $" ++ toString d ++
    "\n\tRETURNING id, name, age, address, work;"

def deleteCmd : String :=
  "\n\tDELETE FROM persons \n\tWHERE id = $1;"

/-- The function `scanPerson`, and the `rows.Scan` of `List`: on success the five columns go
to `ID`, `Name`, `Age`, `Address`, `Work` in this order; on failure `person` is as it was. -/
def scanPerson (row : Except GoError Row) (person : Person) : Person × Option GoError :=
  match row with
  | .error err => (person, some err)
  | .ok (c1, c2, c3, c4, c5) => (⟨c1, c2, c3, c4, c5⟩, none)

/-- The method `Create`. -/
def repository.Create {σ : Type} (S : Store σ) (s : σ) (params : CreateParams) :
    (Option Person × Option GoError) × σ :=
  let (row, s) := S.QueryRow s createCmd
    [Arg.str params.Name, Arg.int params.Age, Arg.str params.Address, Arg.str params.Work]
  let person := Person.zero
  match scanPerson row person with
  | (_, some err) => ((none, some (Wrap ErrDb err.Error)), s)
  | (person, none) => ((some person, none), s)

/-- The method `Get`. -/
def repository.Get {σ : Type} (S : Store σ) (s : σ) (id : Int) : (Option Person × Option GoError) × σ :=
  let (row, s) := S.QueryRow s getCmd [Arg.int64 id]
  let person := Person.zero
  match scanPerson row person with
  | (_, some err) =>
    if Is err ErrNoRows then
      ((none, some (Wrap ErrPersonNotFound err.Error)), s)
    else
      ((none, some (Wrap ErrDb err.Error)), s)
  | (person, none) => ((some person, none), s)

/-- The loop `for rows.Next()` of `List`: `person` is the variable every row is scanned
into, `persons` the slice built so far. -/
def listLoop : Rows → Persons → Person → Option Persons × Option GoError
  | [], persons, _ => (some persons, none)
  | row :: rest, persons, person =>
    match scanPerson row person with
    | (_, some err) => (none, some (Wrap ErrDb err.Error))
    | (person, none) => listLoop rest (persons ++ [person]) person

/-- The method `List`. The local `query` gets the limit clause, and the statement handed to
`db.Query` is `listCmd` on both branches, as in the source. -/
def repository.List {σ : Type} (S : Store σ) (s : σ) (offset limit : Int) :
    (Option Persons × Option GoError) × σ :=
  let query := listCmd
  let (_query, (rows, s)) :=
    if limit ≠ 0 then
      (query ++ " limit $2", S.Query s listCmd [Arg.int64 offset, Arg.int64 limit])
    else
      (query, S.Query s listCmd [Arg.int64 offset])
  match rows with
  | .error err => ((none, some (Wrap ErrDb err.Error)), s)
  | .ok rows => (listLoop rows [] Person.zero, s)

/-- Lines 126 to 147 of `PartialUpdate`: the slices `setValues` and `args` after the four
fields have been looked at. -/
def setClauses (params : PartialUpdateParams) : List String × List Arg :=
  let setValues : List String := []
  let args : List Arg := []
  let (setValues, args) :=
    match params.Name with
    | some name =>
      let setValue := "name = $" ++ toString (args.length + 1)
      let args := args ++ [Arg.strPtr name]
      (setValues ++ [setValue], args)
    | none => (setValues, args)
  let (setValues, args) :=
    match params.Age with
    | some age =>
      let setValue := "age = $" ++ toString (args.length + 1)
      let args := args ++ [Arg.int age]
      (setValues ++ [setValue], args)
    | none => (setValues, args)
  let (setValues, args) :=
    match params.Address with
    | some address =>
      let setValue := "address = $" ++ toString (args.length + 1)
      let args := args ++ [Arg.str address]
      (setValues ++ [setValue], args)
    | none => (setValues, args)
  let (setValues, args) :=
    match params.Work with
    | some work =>
      let setValue := "work = $" ++ toString (args.length + 1)
      let args := args ++ [Arg.str work]
      (setValues ++ [setValue], args)
    | none => (setValues, args)
  (setValues, args)

/-- Lines 148 to 151 of `PartialUpdate`: the statement and the arguments handed to
`db.QueryRow`, and `none` when `setValues` is empty. -/
def updateCall (params : PartialUpdateParams) : Option Call :=
  let (setValues, args) := setClauses params
  if setValues.length > 0 then
    let setValuesPart := ", ".intercalate setValues
    let cmd := fullUpdateCmd setValuesPart (args.length + 1)
    let args := args ++ [Arg.int64 params.ID]
    some (cmd, args)
  else
    none

/-- The method `PartialUpdate`. -/
def repository.PartialUpdate {σ : Type} (S : Store σ) (s : σ) (params : PartialUpdateParams) :
    (Option Person × Option GoError) × σ :=
  match updateCall params with
  | some (cmd, args) =>
    let (row, s) := S.QueryRow s cmd args
    let person := Person.zero
    match scanPerson row person with
    | (_, some err) => ((none, some (Wrap ErrDb err.Error)), s)
    | (person, none) => ((some person, none), s)
  | none => ((none, none), s)

/-- The method `Delete`. -/
def repository.Delete {σ : Type} (S : Store σ) (s : σ) (id : Int) : Option GoError × σ :=
  let (result, s) := S.Exec s deleteCmd [Arg.int64 id]
  match result with
  | .error err => (some (Wrap ErrDb err.Error), s)
  | .ok rowsAffected =>
    if rowsAffected = 0 then
      (some ErrPersonNotFound, s)
    else
      (none, s)

/-! ## Vocabulary of the statements about `PartialUpdate` -/

/-- The four optional fields of a partial update. -/
inductive Field where
  | name
  | age
  | address
  | work
  deriving DecidableEq, Repr

/-- The column a field is stored in. -/
def Field.column : Field → String
  | Field.name => "name"
  | Field.age => "age"
  | Field.address => "address"
  | Field.work => "work"

/-- The value the caller supplied for a field, `none` when the field is absent. -/
def Field.supplied : Field → PartialUpdateParams → Option Arg
  | Field.name, params => params.Name.map Arg.str
  | Field.age, params => params.Age.map Arg.int
  | Field.address, params => params.Address.map Arg.str
  | Field.work, params => params.Work.map Arg.str

/-- The fields present in `params`, in the order name, age, address, work. -/
def presentFields (params : PartialUpdateParams) : List Field :=
  [Field.name, Field.age, Field.address, Field.work].filter
    (fun f => (f.supplied params).isSome)

/-! ## Vocabulary of the statements about errors and rows -/

/-- The error `err` a repository method returns for the store failure `e` is a translation of
it: `err` is of the store-failure, not-found or already-exists kind under `errors.Is`, it is
not the store's own error value, and it is of the store-failure kind unless `e` is of the
kind of `sql.ErrNoRows`. -/
def Translated (e err : GoError) : Prop :=
  (Is err ErrDb = true ∨ Is err ErrPersonNotFound = true ∨ Is err ErrPersonAlreadyExists = true) ∧
  err ≠ e ∧
  (Is e ErrNoRows = false → Is err ErrDb = true)

/-- The arguments `List` hands to `db.Query`. -/
def listArgs (offset limit : Int) : List Arg :=
  if limit ≠ 0 then [Arg.int64 offset, Arg.int64 limit] else [Arg.int64 offset]

/-- The Person whose fields are the five columns of a row, in their order. -/
def Row.toPerson (row : Row) : Person :=
  ⟨row.1, row.2.1, row.2.2.1, row.2.2.2.1, row.2.2.2.2⟩

/-! ## Delivery adapter (`internal/persons/delivery/http`) -/

def StatusOK : Nat := 200

/-- The error `*strconv.NumError` of `strconv.ParseInt` for the input `num`, by its text;
`msg` is the text of `strconv.ErrSyntax` or of `strconv.ErrRange`, to which it unwraps. It
is none of the values of `errors.go` and has no `Cause` method. -/
def NumError (num msg : String) : GoError :=
  other ("strconv.ParseInt: parsing " ++ num.quote ++ ": " ++ msg)

/-- The loop of `strconv.ParseUint(s, 10, 64)` over the characters left, `n` being the
number read so far: `none` for a character that is not a decimal digit (a syntax error),
and otherwise the number, capped at `2^64 - 1` on overflow (a range error). -/
def parseUintLoop : List Char → Nat → Option Nat
  | [], n => some n
  | c :: rest, n =>
    if '0' ≤ c ∧ c ≤ '9' then
      let d := c.toNat - '0'.toNat
      if n ≥ (2 ^ 64 - 1) / 10 + 1 then
        some (2 ^ 64 - 1)
      else
        let n1 := n * 10 + d
        if n1 > 2 ^ 64 - 1 then some (2 ^ 64 - 1) else parseUintLoop rest n1
    else
      none

/-- The function `strconv.ParseInt(s, 10, 64)`: an optional sign and at least one decimal
digit, within the range of `int64`. -/
def ParseInt (s : String) : Except GoError Int :=
  if s = "" then
    .error (NumError s "invalid syntax")
  else
    let (neg, digits) :=
      match s.toList with
      | '+' :: rest => (false, rest)
      | '-' :: rest => (true, rest)
      | chars => (false, chars)
    if digits = [] then
      .error (NumError s "invalid syntax")
    else
      match parseUintLoop digits 0 with
      | none => .error (NumError s "invalid syntax")
      | some un =>
        if !neg && un ≥ 2 ^ 63 then
          .error (NumError s "value out of range")
        else if neg && un > 2 ^ 63 then
          .error (NumError s "value out of range")
        else
          .ok (if neg then -(un : Int) else (un : Int))

/-- What a handler does with the response writer: `pHTTP.HandleError(w, r, err)`,
`pHTTP.SendJSON(w, r, code, body)`, or a run-time failure on reading a field through a nil
pointer. -/
inductive Outcome (β : Type) where
  | HandleError (err : GoError)
  | SendJSON (code : Nat) (body : β)
  | nilDereference
  deriving DecidableEq, Repr

/-- The handler `list`; `limitValue` and `offsetValue` are `queryParams.Get("limit")` and
`queryParams.Get("offset")`, the empty string when the request has no such value. -/
def delivery.list {σ : Type} (S : Store σ) (s : σ) (limitValue offsetValue : String) :
    Outcome (Option Persons) × σ :=
  let limit : Except GoError Int := if limitValue ≠ "" then ParseInt limitValue else .ok 0
  match limit with
  | .error err => (Outcome.HandleError err, s)
  | .ok limit =>
    let offset : Except GoError Int := if offsetValue ≠ "" then ParseInt offsetValue else .ok 0
    match offset with
    | .error err => (Outcome.HandleError err, s)
    | .ok offset =>
      match repository.List S s offset limit with
      | ((_, some err), s) => (Outcome.HandleError err, s)
      | ((persons, none), s) => (Outcome.SendJSON StatusOK persons, s)

/-- The struct `partialUpdateRequest` of `dto.go`; a nil pointer field is `none`. -/
structure partialUpdateRequest where
  Name : Option String
  Age : Option Int
  Address : Option String
  Work : Option String
  deriving DecidableEq, Repr

/-- The struct `getResponse` of `dto.go`. -/
structure getResponse where
  ID : Int
  Name : String
  Age : Int
  Address : String
  Work : String
  deriving DecidableEq, Repr

/-- The function `newGetResponse`: it reads the five fields through the pointer `person`,
first of all `person.ID`; `none` is the nil pointer dereference on a nil `person`. -/
def newGetResponse (person : Option Person) : Option getResponse :=
  match person with
  | none => none
  | some person => some ⟨person.ID, person.Name, person.Age, person.Address, person.Work⟩

/-- The handler `partialUpdate`; `idVar` is `mux.Vars(r)["id"]`, and `body` is the outcome
of `pHTTP.ReadBody` followed by `json.Unmarshal`: the error of `ReadBody`, or `none` when
`Unmarshal` fails, or the decoded request. -/
def delivery.partialUpdate {σ : Type} (S : Store σ) (s : σ) (idVar : String)
    (body : Except GoError (Option partialUpdateRequest)) : Outcome getResponse × σ :=
  match ParseInt idVar with
  | .error err => (Outcome.HandleError err, s)
  | .ok personID =>
    match body with
    | .error err => (Outcome.HandleError err, s)
    | .ok none => (Outcome.HandleError ErrReadBody, s)
    | .ok (some request) =>
      let params : PartialUpdateParams :=
        ⟨personID, request.Name, request.Age, request.Address, request.Work⟩
      match repository.PartialUpdate S s params with
      | ((_, some err), s) => (Outcome.HandleError err, s)
      | ((person, none), s) =>
        match newGetResponse person with
        | none => (Outcome.nilDereference, s)
        | some response => (Outcome.SendJSON StatusOK response, s)

/-! ## The store as `database/sql` reports it -/

/-- A `*sql.Rows`: the rows for which `rows.Next()` is true, each with the outcome of its
`Scan`, and the error `rows.Err()` holds once `rows.Next()` is false, `none` when the rows
came to their end and `some` when the iteration failed. -/
structure SqlRows where
  rows : Rows
  Err : Option GoError

/-- A `sql.Result`: the count and the error that `RowsAffected()` returns. -/
structure SqlResult where
  RowsAffected : Int × Option GoError

/-- The three calls on `*sql.DB` with all they report, over a store state `σ`. -/
structure SqlDB (σ : Type) where
  QueryRow : σ → String → List Arg → Except GoError Row × σ
  Query : σ → String → List Arg → Except GoError SqlRows × σ
  Exec : σ → String → List Arg → Except GoError SqlResult × σ

/-- What the repository reads of a `*sql.DB`: the loop `for rows.Next()` of `List` takes the
rows and the method never calls `rows.Err()`; `Delete` keeps the count of
`rowsAffected, _ := result.RowsAffected()` and drops the error. -/
def SqlDB.read {σ : Type} (db : SqlDB σ) : Store σ where
  QueryRow := db.QueryRow
  Query := fun s cmd args =>
    match db.Query s cmd args with
    | (.error err, s) => (.error err, s)
    | (.ok rows, s) => (.ok rows.rows, s)
  Exec := fun s cmd args =>
    match db.Exec s cmd args with
    | (.error err, s) => (.error err, s)
    | (.ok result, s) => (.ok result.RowsAffected.1, s)

/-- A `*sql.DB` in the manner of `sqlmock`: its state is the list of the statements executed
so far, and its three answers are fixed in advance. -/
def sqlmock (row : Except GoError Row) (rows : Except GoError SqlRows)
    (result : Except GoError SqlResult) : SqlDB (List Call) where
  QueryRow := fun log cmd args => (row, log ++ [(cmd, args)])
  Query := fun log cmd args => (rows, log ++ [(cmd, args)])
  Exec := fun log cmd args => (result, log ++ [(cmd, args)])

/-! ## Lemmas on error values -/

theorem Is_Wrap_self (kind : GoError) (message : String) : Is (Wrap kind message) kind = true := by
  cases kind <;> simp [Wrap, Is]

theorem Cause_Wrap (err : GoError) (message : String) : Cause (Wrap err message) = Cause err := by
  simp [Wrap, Cause]

/-- An error in the classifier table is one of the four package-level values. -/
theorem mem_httpCodes_keys {e : GoError} (h : e ∈ httpCodes.map Prod.fst) :
    e = ErrDb ∨ e = ErrPersonNotFound ∨ e = ErrPersonAlreadyExists ∨ e = ErrReadBody := by
  simpa [httpCodes] using h

/-- An error whose chain holds a table error has this error as its innermost cause. -/
theorem Cause_of_Is {e : GoError} (h : e ∈ httpCodes.map Prod.fst) :
    ∀ w : GoError, Is w e = true → Cause w = e := by
  intro w
  induction w with
  | withMessage cause msg ih =>
    intro hw
    rcases mem_httpCodes_keys h with rfl | rfl | rfl | rfl <;>
      simp [Is] at hw <;> simpa [Cause] using ih hw
  | withStack err ih =>
    intro hw
    rcases mem_httpCodes_keys h with rfl | rfl | rfl | rfl <;>
      simp [Is] at hw <;> simpa [Cause] using ih hw
  | _ =>
    intro hw
    rcases mem_httpCodes_keys h with rfl | rfl | rfl | rfl <;>
      simp [Is] at hw <;> simp [Cause]

/-- C6: `GetHTTPCodeByError` gives 500 for `ErrDb`, 404 for `ErrPersonNotFound`, 409 for
`ErrPersonAlreadyExists` and 400 for `ErrReadBody`, each with the found flag true, and 500
with the found flag false for every other error value. -/
theorem GetHTTPCodeByError_table :
    GetHTTPCodeByError ErrDb = (500, true) ∧
    GetHTTPCodeByError ErrPersonNotFound = (404, true) ∧
    GetHTTPCodeByError ErrPersonAlreadyExists = (409, true) ∧
    GetHTTPCodeByError ErrReadBody = (400, true) ∧
    ∀ err : GoError, err ≠ ErrDb → err ≠ ErrPersonNotFound → err ≠ ErrPersonAlreadyExists →
      err ≠ ErrReadBody → GetHTTPCodeByError err = (500, false) := by
  refine ⟨rfl, rfl, rfl, rfl, ?_⟩
  intro err h1 h2 h3 h4
  have e1 : (err == ErrDb) = false := beq_eq_false_iff_ne.mpr h1
  have e2 : (err == ErrPersonNotFound) = false := beq_eq_false_iff_ne.mpr h2
  have e3 : (err == ErrPersonAlreadyExists) = false := beq_eq_false_iff_ne.mpr h3
  have e4 : (err == ErrReadBody) = false := beq_eq_false_iff_ne.mpr h4
  simp [GetHTTPCodeByError, httpCodes, List.lookup, e1, e2, e3, e4, StatusInternalServerError]

/-- C6, at an error of the driver and at a wrapped table error: both are unmapped. -/
theorem GetHTTPCodeByError_table_witness :
    GetHTTPCodeByError (other "connection refused") = (500, false) ∧
    GetHTTPCodeByError (Wrap ErrPersonNotFound "sql: no rows in result set") = (500, false) :=
  ⟨GetHTTPCodeByError_table.2.2.2.2 (other "connection refused")
      (by decide) (by decide) (by decide) (by decide),
    GetHTTPCodeByError_table.2.2.2.2 (Wrap ErrPersonNotFound "sql: no rows in result set")
      (by decide) (by decide) (by decide) (by decide)⟩

/-! ## Lemmas on the repository methods -/

theorem Get_error {σ : Type} (S : Store σ) (s : σ) (id : Int) (e : GoError)
    (h : (S.QueryRow s getCmd [Arg.int64 id]).1 = .error e) :
    (repository.Get S s id).1 =
      (none, some (Wrap (if Is e ErrNoRows then ErrPersonNotFound else ErrDb) e.Error)) := by
  unfold repository.Get
  rcases hq : S.QueryRow s getCmd [Arg.int64 id] with ⟨row, s1⟩
  rw [hq] at h
  simp only at h
  subst h
  by_cases hn : Is e ErrNoRows = true <;> simp [scanPerson, hn]

theorem Get_ok {σ : Type} (S : Store σ) (s : σ) (id : Int) (row : Row)
    (h : (S.QueryRow s getCmd [Arg.int64 id]).1 = .ok row) :
    (repository.Get S s id).1 =
      (some ⟨row.1, row.2.1, row.2.2.1, row.2.2.2.1, row.2.2.2.2⟩, none) := by
  unfold repository.Get
  rcases hq : S.QueryRow s getCmd [Arg.int64 id] with ⟨r, s1⟩
  rw [hq] at h
  simp only at h
  subst h
  rcases row with ⟨c1, c2, c3, c4, c5⟩
  simp [scanPerson]

/-- C7: for a domain error `e` of the classifier table and an error `w` whose chain leads to
`e` (`errors.Is w e`, as for `errors.Wrap(e, ...)`), the classification of `w`, which looks
up the innermost cause, is the classification of `e`, which is the table entry of `e`; and
the error `Get` returns when the select yields no rows classifies to 404. -/
theorem classify_wrapped :
    (∀ e w : GoError, e ∈ httpCodes.map Prod.fst → Is w e = true →
      classify w = classify e ∧ classify e = GetHTTPCodeByError e) ∧
    (∀ (σ : Type) (S : Store σ) (s : σ) (id : Int) (e0 : GoError),
      (S.QueryRow s getCmd [Arg.int64 id]).1 = .error e0 → Is e0 ErrNoRows = true →
      ∃ err, (repository.Get S s id).1 = (none, some err) ∧ classify err = (404, true)) := by
  constructor
  · intro e w he hw
    have hc : Cause e = e := by
      rcases mem_httpCodes_keys he with rfl | rfl | rfl | rfl <;> rfl
    simp [classify, Cause_of_Is he w hw, hc]
  · intro σ S s id e0 hq hn
    refine ⟨_, Get_error S s id e0 hq, ?_⟩
    simp [hn, classify, Cause_Wrap, Cause]
    rfl

/-- C7, at the not-found error wrapped with the text of `sql.ErrNoRows`, and at `Get` on a
store that has no row. -/
theorem classify_wrapped_witness :
    (classify (Wrap ErrPersonNotFound "sql: no rows in result set") = classify ErrPersonNotFound ∧
      classify ErrPersonNotFound = GetHTTPCodeByError ErrPersonNotFound) ∧
    ∃ err, (repository.Get (recorder (.error ErrNoRows) (.ok []) (.ok 0)) [] 3).1 =
      (none, some err) ∧ classify err = (404, true) :=
  ⟨classify_wrapped.1 ErrPersonNotFound (Wrap ErrPersonNotFound "sql: no rows in result set")
      (by decide) (by decide),
    classify_wrapped.2 (List Call) (recorder (.error ErrNoRows) (.ok []) (.ok 0)) [] 3 ErrNoRows
      rfl (by decide)⟩

theorem PartialUpdate_recorder_some (row : Except GoError Row) (rows : Except GoError Rows)
    (result : Except GoError Int) (log : List Call) (params : PartialUpdateParams)
    (cmd : String) (args : List Arg) (h : updateCall params = some (cmd, args)) :
    (repository.PartialUpdate (recorder row rows result) log params).2 = log ++ [(cmd, args)] := by
  unfold repository.PartialUpdate
  rw [h]
  simp only [recorder]
  cases hs : scanPerson row Person.zero with
  | mk person err => cases err <;> rfl

theorem PartialUpdate_none {σ : Type} (S : Store σ) (s : σ) (params : PartialUpdateParams)
    (h : updateCall params = none) :
    repository.PartialUpdate S s params = ((none, none), s) := by
  unfold repository.PartialUpdate
  rw [h]

/-- C4: when name, age, address and work are all absent, `PartialUpdate` makes no call on
the store, whose state is the one it was given, and returns a nil Person and a nil error. -/
theorem PartialUpdate_no_fields {σ : Type} (S : Store σ) (s : σ) (params : PartialUpdateParams)
    (hName : params.Name = none) (hAge : params.Age = none) (hAddress : params.Address = none)
    (hWork : params.Work = none) :
    repository.PartialUpdate S s params = ((none, none), s) := by
  apply PartialUpdate_none
  simp [updateCall, setClauses, hName, hAge, hAddress, hWork]

/-- C4, on a recording store that has executed one statement before: the log is unchanged. -/
theorem PartialUpdate_no_fields_witness :
    repository.PartialUpdate (recorder (.ok (7, "Johnny", 22, "Moscow", "Yandex")) (.ok []) (.ok 1))
        [(getCmd, [Arg.int64 7])] ⟨7, none, none, none, none⟩ =
      ((none, none), [(getCmd, [Arg.int64 7])]) :=
  PartialUpdate_no_fields _ _ ⟨7, none, none, none, none⟩ rfl rfl rfl rfl

/-- C1: in the statement and the argument list `PartialUpdate` hands to the store, the SET
part is the list of clauses joined by a comma, and for every N from 1 to the number of
clauses the Nth clause is `<column> = $N` for one of the four fields and the Nth argument
carries the value supplied for this very field (for name as a pointer to it). -/
theorem PartialUpdate_clause_value (params : PartialUpdateParams) (cmd : String)
    (args : List Arg) (h : updateCall params = some (cmd, args)) :
    (∀ (row : Except GoError Row) (rows : Except GoError Rows) (result : Except GoError Int)
        (log : List Call),
      (repository.PartialUpdate (recorder row rows result) log params).2 = log ++ [(cmd, args)]) ∧
    ∃ clauses : List String,
      cmd = "\n\tUPDATE persons\n\tSET " ++ ", ".intercalate clauses ++ "\n\tWHERE id = $" ++
        toString args.length ++ "\n\tRETURNING id, name, age, address, work;" ∧
      args.length = clauses.length + 1 ∧
      ∀ N : Nat, 1 ≤ N → N ≤ clauses.length →
        ∃ (f : Field) (a : Arg), clauses[N - 1]? = some (f.column ++ " = $" ++ toString N) ∧
          args[N - 1]? = some a ∧ f.supplied params = some a.deref := by
  refine ⟨fun row rows result log => PartialUpdate_recorder_some row rows result log params cmd args h,
    (setClauses params).1, ?_⟩
  rcases params with ⟨id, name, age, address, work⟩
  rcases name with _ | name <;> rcases age with _ | age <;> rcases address with _ | address <;>
    rcases work with _ | work <;>
    simp [updateCall, setClauses] at h <;>
    obtain ⟨rfl, rfl⟩ := h <;>
    refine ⟨rfl, rfl, ?_⟩ <;>
    intro N h1 h2 <;>
    simp [setClauses] at h2 <;>
    interval_cases N <;>
    first
      | exact ⟨Field.name, _, rfl, rfl, rfl⟩
      | exact ⟨Field.age, _, rfl, rfl, rfl⟩
      | exact ⟨Field.address, _, rfl, rfl, rfl⟩
      | exact ⟨Field.work, _, rfl, rfl, rfl⟩

/-- C1, for a request that supplies name and address: clause 1 is for name, clause 2 for
address, and the arguments are the name, the address and the id. -/
theorem PartialUpdate_clause_value_witness :
    ∃ clauses : List String,
      "\n\tUPDATE persons\n\tSET name = $1, address = $2\n\tWHERE id = $3\n\tRETURNING id, name, age, address, work;" =
        "\n\tUPDATE persons\n\tSET " ++ ", ".intercalate clauses ++ "\n\tWHERE id = $" ++
        toString [Arg.strPtr "Ann", Arg.str "Oslo", Arg.int64 7].length ++
        "\n\tRETURNING id, name, age, address, work;" ∧
      [Arg.strPtr "Ann", Arg.str "Oslo", Arg.int64 7].length = clauses.length + 1 ∧
      ∀ N : Nat, 1 ≤ N → N ≤ clauses.length →
        ∃ (f : Field) (a : Arg), clauses[N - 1]? = some (f.column ++ " = $" ++ toString N) ∧
          [Arg.strPtr "Ann", Arg.str "Oslo", Arg.int64 7][N - 1]? = some a ∧
          f.supplied ⟨7, some "Ann", none, some "Oslo", none⟩ = some a.deref :=
  (PartialUpdate_clause_value ⟨7, some "Ann", none, some "Oslo", none⟩
    "\n\tUPDATE persons\n\tSET name = $1, address = $2\n\tWHERE id = $3\n\tRETURNING id, name, age, address, work;"
    [Arg.strPtr "Ann", Arg.str "Oslo", Arg.int64 7] rfl).2

/-- C2: with at least one field present, the statement `PartialUpdate` hands to the store
has as its SET part the clauses of exactly the present fields, in the order name, age,
address, work, numbered from 1 and joined by a comma; a field is among them if and only if
the caller supplied it, and no field is stored in the column `id`. -/
theorem PartialUpdate_set_part (params : PartialUpdateParams)
    (h : 1 ≤ (presentFields params).length) :
    ∃ (cmd : String) (args : List Arg),
      (∀ (row : Except GoError Row) (rows : Except GoError Rows) (result : Except GoError Int)
          (log : List Call),
        (repository.PartialUpdate (recorder row rows result) log params).2 =
          log ++ [(cmd, args)]) ∧
      cmd = "\n\tUPDATE persons\n\tSET " ++
        ", ".intercalate (List.zipWith (fun f i => f.column ++ " = $" ++ toString (i + 1))
          (presentFields params) (List.range (presentFields params).length)) ++
        "\n\tWHERE id = $" ++ toString ((presentFields params).length + 1) ++
        "\n\tRETURNING id, name, age, address, work;" ∧
      (∀ f : Field, f ∈ presentFields params ↔ (f.supplied params).isSome = true) ∧
      (presentFields params).Sublist [Field.name, Field.age, Field.address, Field.work] ∧
      ∀ f : Field, f.column ≠ "id" := by
  have hmem : ∀ f : Field, f ∈ presentFields params ↔ (f.supplied params).isSome = true := by
    intro f
    cases f <;> simp [presentFields]
  have hsub : (presentFields params).Sublist
      [Field.name, Field.age, Field.address, Field.work] := List.filter_sublist _
  have hcol : ∀ f : Field, f.column ≠ "id" := by
    intro f
    cases f <;> decide
  rcases params with ⟨id, name, age, address, work⟩
  rcases name with _ | name <;> rcases age with _ | age <;> rcases address with _ | address <;>
    rcases work with _ | work <;>
    first
      | (exfalso; simp [presentFields, Field.supplied] at h; done)
      | exact ⟨_, _, fun row rows result log =>
          PartialUpdate_recorder_some row rows result log _ _ _ rfl, rfl, hmem, hsub, hcol⟩

/-- C2, for a request that supplies age and work. -/
theorem PartialUpdate_set_part_witness :
    ∃ (cmd : String) (args : List Arg),
      (∀ (row : Except GoError Row) (rows : Except GoError Rows) (result : Except GoError Int)
          (log : List Call),
        (repository.PartialUpdate (recorder row rows result) log
          ⟨7, none, some 23, none, some "Yandex"⟩).2 = log ++ [(cmd, args)]) ∧
      cmd = "\n\tUPDATE persons\n\tSET " ++
        ", ".intercalate (List.zipWith (fun f i => f.column ++ " = $" ++ toString (i + 1))
          (presentFields ⟨7, none, some 23, none, some "Yandex"⟩)
          (List.range (presentFields ⟨7, none, some 23, none, some "Yandex"⟩).length)) ++
        "\n\tWHERE id = $" ++
        toString ((presentFields ⟨7, none, some 23, none, some "Yandex"⟩).length + 1) ++
        "\n\tRETURNING id, name, age, address, work;" ∧
      (∀ f : Field, f ∈ presentFields ⟨7, none, some 23, none, some "Yandex"⟩ ↔
        (f.supplied ⟨7, none, some 23, none, some "Yandex"⟩).isSome = true) ∧
      (presentFields ⟨7, none, some 23, none, some "Yandex"⟩).Sublist
        [Field.name, Field.age, Field.address, Field.work] ∧
      ∀ f : Field, f.column ≠ "id" :=
  PartialUpdate_set_part ⟨7, none, some 23, none, some "Yandex"⟩ (by decide)

/-- C3: with k at least 1 fields present, the argument list `PartialUpdate` hands to the
store has k+1 elements, the last of them (at position k+1) is the id, and the WHERE clause
of the statement is `WHERE id = $(k+1)`. -/
theorem PartialUpdate_id_last (params : PartialUpdateParams)
    (h : 1 ≤ (presentFields params).length) :
    ∃ (cmd : String) (args : List Arg),
      (∀ (row : Except GoError Row) (rows : Except GoError Rows) (result : Except GoError Int)
          (log : List Call),
        (repository.PartialUpdate (recorder row rows result) log params).2 =
          log ++ [(cmd, args)]) ∧
      args.length = (presentFields params).length + 1 ∧
      args.getLast? = some (Arg.int64 params.ID) ∧
      args[(presentFields params).length]? = some (Arg.int64 params.ID) ∧
      cmd = "\n\tUPDATE persons\n\tSET " ++ ", ".intercalate (setClauses params).1 ++
        "\n\tWHERE id = $" ++ toString ((presentFields params).length + 1) ++
        "\n\tRETURNING id, name, age, address, work;" := by
  rcases params with ⟨id, name, age, address, work⟩
  rcases name with _ | name <;> rcases age with _ | age <;> rcases address with _ | address <;>
    rcases work with _ | work <;>
    first
      | (exfalso; simp [presentFields, Field.supplied] at h; done)
      | exact ⟨_, _, fun row rows result log =>
          PartialUpdate_recorder_some row rows result log _ _ _ rfl, rfl, rfl, rfl, rfl⟩

/-- C3, for a request that supplies all four fields: five arguments, the id the fifth. -/
theorem PartialUpdate_id_last_witness :
    ∃ (cmd : String) (args : List Arg),
      (∀ (row : Except GoError Row) (rows : Except GoError Rows) (result : Except GoError Int)
          (log : List Call),
        (repository.PartialUpdate (recorder row rows result) log
          ⟨9, some "Ann", some 30, some "Oslo", some "Acme"⟩).2 = log ++ [(cmd, args)]) ∧
      args.length = 4 + 1 ∧
      args.getLast? = some (Arg.int64 9) ∧
      args[4]? = some (Arg.int64 9) ∧
      cmd = "\n\tUPDATE persons\n\tSET name = $1, age = $2, address = $3, work = $4\n\tWHERE id = $5\n\tRETURNING id, name, age, address, work;" :=
  PartialUpdate_id_last ⟨9, some "Ann", some 30, some "Oslo", some "Acme"⟩ (by decide)

theorem String_ne_append_colon (m t : String) : m ≠ m ++ ": " ++ t := by
  intro h
  have hl := congrArg String.length h
  simp only [String.length_append] at hl
  have h2 : (": " : String).length = 2 := by decide
  omega

/-- A wrapped error that carries the text of `e` is never `e` itself. -/
theorem Wrap_Error_ne (kind e : GoError) : Wrap kind e.Error ≠ e := by
  intro h
  have h1 : (Wrap kind e.Error).Error = e.Error := by rw [h]
  simp only [Wrap, GoError.Error] at h1
  exact String_ne_append_colon e.Error kind.Error h1.symm

theorem Translated_Wrap_ErrDb (e : GoError) : Translated e (Wrap ErrDb e.Error) :=
  ⟨Or.inl (Is_Wrap_self _ _), Wrap_Error_ne _ _, fun _ => Is_Wrap_self _ _⟩

theorem Translated_Wrap_Get (e : GoError) :
    Translated e (Wrap (if Is e ErrNoRows then ErrPersonNotFound else ErrDb) e.Error) := by
  by_cases hn : Is e ErrNoRows = true
  · simp only [hn, if_true]
    exact ⟨Or.inr (Or.inl (Is_Wrap_self _ _)), Wrap_Error_ne _ _, fun h => by simp [hn] at h⟩
  · simp only [hn]
    exact Translated_Wrap_ErrDb e

theorem listLoop_ok (rows : List Row) :
    ∀ (persons : Persons) (person : Person),
      listLoop (rows.map Except.ok) persons person = (some (persons ++ rows.map Row.toPerson), none) := by
  induction rows with
  | nil => intro persons person; simp [listLoop]
  | cons row rest ih =>
    intro persons person
    rcases row with ⟨c1, c2, c3, c4, c5⟩
    simp [listLoop, scanPerson, ih, Row.toPerson]

theorem listLoop_error (pre : List Row) (e : GoError) (post : Rows) :
    ∀ (persons : Persons) (person : Person),
      listLoop (pre.map Except.ok ++ Except.error e :: post) persons person =
        (none, some (Wrap ErrDb e.Error)) := by
  induction pre with
  | nil => intro persons person; simp [listLoop, scanPerson]
  | cons row rest ih =>
    intro persons person
    rcases row with ⟨c1, c2, c3, c4, c5⟩
    simp [listLoop, scanPerson, ih]

theorem List_eq {σ : Type} (S : Store σ) (s : σ) (offset limit : Int) :
    repository.List S s offset limit =
      match S.Query s listCmd (listArgs offset limit) with
      | (.error err, s1) => ((none, some (Wrap ErrDb err.Error)), s1)
      | (.ok rows, s1) => (listLoop rows [] Person.zero, s1) := by
  unfold repository.List listArgs
  by_cases hl : limit = 0
  · simp only [hl, ne_eq, not_true_eq_false, if_false]
    rcases S.Query s listCmd [Arg.int64 offset] with ⟨rows, s1⟩
    cases rows <;> rfl
  · simp only [hl, ne_eq, not_false_eq_true, if_true]
    rcases S.Query s listCmd [Arg.int64 offset, Arg.int64 limit] with ⟨rows, s1⟩
    cases rows <;> rfl

theorem List_recorder (row : Except GoError Row) (rows : Except GoError Rows)
    (result : Except GoError Int) (log : List Call) (offset limit : Int) :
    (repository.List (recorder row rows result) log offset limit).2 =
      log ++ [(listCmd, listArgs offset limit)] := by
  rw [List_eq]
  cases rows <;> rfl

theorem Delete_eq {σ : Type} (S : Store σ) (s : σ) (id : Int) :
    (repository.Delete S s id).1 =
      match (S.Exec s deleteCmd [Arg.int64 id]).1 with
      | .error err => some (Wrap ErrDb err.Error)
      | .ok rowsAffected => if rowsAffected = 0 then some ErrPersonNotFound else none := by
  unfold repository.Delete
  rcases S.Exec s deleteCmd [Arg.int64 id] with ⟨result, s1⟩
  cases result with
  | error err => rfl
  | ok n => by_cases hn : n = 0 <;> simp [hn]

theorem Create_error {σ : Type} (S : Store σ) (s : σ) (params : CreateParams) (e : GoError)
    (h : (S.QueryRow s createCmd [Arg.str params.Name, Arg.int params.Age,
      Arg.str params.Address, Arg.str params.Work]).1 = .error e) :
    (repository.Create S s params).1 = (none, some (Wrap ErrDb e.Error)) := by
  unfold repository.Create
  rcases hq : S.QueryRow s createCmd [Arg.str params.Name, Arg.int params.Age,
      Arg.str params.Address, Arg.str params.Work] with ⟨row, s1⟩
  rw [hq] at h
  simp only at h
  subst h
  simp [scanPerson]

theorem PartialUpdate_error {σ : Type} (S : Store σ) (s : σ) (params : PartialUpdateParams)
    (cmd : String) (args : List Arg) (e : GoError) (hc : updateCall params = some (cmd, args))
    (h : (S.QueryRow s cmd args).1 = .error e) :
    (repository.PartialUpdate S s params).1 = (none, some (Wrap ErrDb e.Error)) := by
  unfold repository.PartialUpdate
  rw [hc]
  rcases hq : S.QueryRow s cmd args with ⟨row, s1⟩
  rw [hq] at h
  simp only at h
  subst h
  simp [scanPerson, hq]

/-- C5: on every offset and limit `List` executes one statement, whose text is `listCmd`
and whose arguments are the offset, followed by the limit when the limit is not zero; the
text `listCmd` has the offset clause and no limit clause. At offset 0 and limit 2 the store
receives `listCmd` with the two arguments 0 and 2, and not the text with ` limit $2`. -/
theorem List_limit_clause_missing :
    (∀ (row : Except GoError Row) (rows : Except GoError Rows) (result : Except GoError Int)
        (log : List Call) (offset limit : Int),
      (repository.List (recorder row rows result) log offset limit).2 =
        log ++ [(listCmd, if limit ≠ 0 then [Arg.int64 offset, Arg.int64 limit]
          else [Arg.int64 offset])]) ∧
    "offset $1".toList <:+: listCmd.toList ∧
    ¬ "limit".toList <:+: listCmd.toList ∧
    (repository.List (recorder (.error ErrNoRows) (.ok []) (.ok 0)) [] 0 2).2 =
      [(listCmd, [Arg.int64 0, Arg.int64 2])] ∧
    (repository.List (recorder (.error ErrNoRows) (.ok []) (.ok 0)) [] 0 2).2 ≠
      [(listCmd ++ " limit $2", [Arg.int64 0, Arg.int64 2])] := by
  refine ⟨fun row rows result log offset limit => List_recorder row rows result log offset limit,
    by decide, by decide, by decide, by decide⟩

/-- C8: when the select of `Get` yields no rows (its `Scan` returns an error of the kind of
`sql.ErrNoRows`), `Get` returns an error of the not-found kind, and when it yields a row,
`Get` returns the Person decoded from this row and no error; when the delete affects zero
rows, `Delete` returns an error of the not-found kind, and when it affects some rows,
`Delete` returns no error. -/
theorem Get_Delete_found_or_not {σ : Type} (S : Store σ) (s : σ) (id : Int) :
    (∀ e : GoError, (S.QueryRow s getCmd [Arg.int64 id]).1 = .error e → Is e ErrNoRows = true →
      ∃ err, (repository.Get S s id).1 = (none, some err) ∧ Is err ErrPersonNotFound = true) ∧
    (∀ row : Row, (S.QueryRow s getCmd [Arg.int64 id]).1 = .ok row →
      ∃ person, (repository.Get S s id).1 = (some person, none) ∧
        (person.ID, person.Name, person.Age, person.Address, person.Work) = row) ∧
    ((S.Exec s deleteCmd [Arg.int64 id]).1 = .ok 0 →
      ∃ err, (repository.Delete S s id).1 = some err ∧ Is err ErrPersonNotFound = true) ∧
    (∀ n : Int, n ≠ 0 → (S.Exec s deleteCmd [Arg.int64 id]).1 = .ok n →
      (repository.Delete S s id).1 = none) := by
  refine ⟨?_, ?_, ?_, ?_⟩
  · intro e hq hn
    refine ⟨_, Get_error S s id e hq, ?_⟩
    simp only [hn, if_true]
    exact Is_Wrap_self _ _
  · intro row hq
    exact ⟨_, Get_ok S s id row hq, rfl⟩
  · intro hq
    refine ⟨ErrPersonNotFound, ?_, by decide⟩
    rw [Delete_eq, hq]
    rfl
  · intro n hn hq
    rw [Delete_eq, hq]
    simp [hn]

/-- C8, on stores in which id 3 has no row, and on stores in which it has one. -/
theorem Get_Delete_found_or_not_witness :
    (∃ err, (repository.Get (recorder (.error ErrNoRows) (.ok []) (.ok 0)) [] 3).1 =
        (none, some err) ∧ Is err ErrPersonNotFound = true) ∧
    (∃ person, (repository.Get (recorder (.ok (3, "Johnny", 22, "Moscow", "Yandex")) (.ok [])
        (.ok 1)) [] 3).1 = (some person, none) ∧
      (person.ID, person.Name, person.Age, person.Address, person.Work) =
        (3, "Johnny", 22, "Moscow", "Yandex")) ∧
    (∃ err, (repository.Delete (recorder (.error ErrNoRows) (.ok []) (.ok 0)) [] 3).1 = some err ∧
      Is err ErrPersonNotFound = true) ∧
    (repository.Delete (recorder (.ok (3, "Johnny", 22, "Moscow", "Yandex")) (.ok [])
      (.ok 1)) [] 3).1 = none :=
  ⟨(Get_Delete_found_or_not (recorder (.error ErrNoRows) (.ok []) (.ok 0)) [] 3).1
      ErrNoRows rfl (by decide),
    (Get_Delete_found_or_not (recorder (.ok (3, "Johnny", 22, "Moscow", "Yandex")) (.ok [])
      (.ok 1)) [] 3).2.1 (3, "Johnny", 22, "Moscow", "Yandex") rfl,
    (Get_Delete_found_or_not (recorder (.error ErrNoRows) (.ok []) (.ok 0)) [] 3).2.2.1 rfl,
    (Get_Delete_found_or_not (recorder (.ok (3, "Johnny", 22, "Moscow", "Yandex")) (.ok [])
      (.ok 1)) [] 3).2.2.2 1 (by decide) rfl⟩

theorem List_query_error {σ : Type} (S : Store σ) (s : σ) (offset limit : Int) (e : GoError)
    (h : (S.Query s listCmd (listArgs offset limit)).1 = .error e) :
    (repository.List S s offset limit).1 = (none, some (Wrap ErrDb e.Error)) := by
  rw [List_eq]
  rcases hq : S.Query s listCmd (listArgs offset limit) with ⟨rows, s1⟩
  rw [hq] at h
  simp only at h
  subst h
  rfl

theorem List_query_ok {σ : Type} (S : Store σ) (s : σ) (offset limit : Int) (rows : Rows)
    (h : (S.Query s listCmd (listArgs offset limit)).1 = .ok rows) :
    (repository.List S s offset limit).1 = listLoop rows [] Person.zero := by
  rw [List_eq]
  rcases hq : S.Query s listCmd (listArgs offset limit) with ⟨r, s1⟩
  rw [hq] at h
  simp only at h
  subst h
  rfl

/-- At each of the six places where a method receives an error (the call it makes on the
store or, for `List`, the `Scan` of a row), the method returns a translation of it. -/
theorem received_error_translated {σ : Type} (S : Store σ) (s : σ) (e : GoError) :
    (∀ params : CreateParams,
      (S.QueryRow s createCmd [Arg.str params.Name, Arg.int params.Age,
        Arg.str params.Address, Arg.str params.Work]).1 = .error e →
      ∃ err, (repository.Create S s params).1 = (none, some err) ∧ Translated e err) ∧
    (∀ id : Int, (S.QueryRow s getCmd [Arg.int64 id]).1 = .error e →
      ∃ err, (repository.Get S s id).1 = (none, some err) ∧ Translated e err) ∧
    (∀ offset limit : Int, (S.Query s listCmd (listArgs offset limit)).1 = .error e →
      ∃ err, (repository.List S s offset limit).1 = (none, some err) ∧ Translated e err) ∧
    (∀ (offset limit : Int) (pre : List Row) (post : Rows),
      (S.Query s listCmd (listArgs offset limit)).1 =
        .ok (pre.map Except.ok ++ Except.error e :: post) →
      ∃ err, (repository.List S s offset limit).1 = (none, some err) ∧ Translated e err) ∧
    (∀ (params : PartialUpdateParams) (cmd : String) (args : List Arg),
      updateCall params = some (cmd, args) → (S.QueryRow s cmd args).1 = .error e →
      ∃ err, (repository.PartialUpdate S s params).1 = (none, some err) ∧ Translated e err) ∧
    (∀ id : Int, (S.Exec s deleteCmd [Arg.int64 id]).1 = .error e →
      ∃ err, (repository.Delete S s id).1 = some err ∧ Translated e err) := by
  refine ⟨?_, ?_, ?_, ?_, ?_, ?_⟩
  · intro params hq
    exact ⟨_, Create_error S s params e hq, Translated_Wrap_ErrDb e⟩
  · intro id hq
    exact ⟨_, Get_error S s id e hq, Translated_Wrap_Get e⟩
  · intro offset limit hq
    exact ⟨_, List_query_error S s offset limit e hq, Translated_Wrap_ErrDb e⟩
  · intro offset limit pre post hq
    refine ⟨_, ?_, Translated_Wrap_ErrDb e⟩
    rw [List_query_ok S s offset limit _ hq]
    exact listLoop_error pre e post [] Person.zero
  · intro params cmd args hc hq
    exact ⟨_, PartialUpdate_error S s params cmd args e hc hq, Translated_Wrap_ErrDb e⟩
  · intro id hq
    refine ⟨Wrap ErrDb e.Error, ?_, Translated_Wrap_ErrDb e⟩
    rw [Delete_eq, hq]

/-- C10: when the store answers the query of `List` with rows that all scan, `List` returns
no error and a slice of the same length whose i-th Person has as (ID, Name, Age, Address,
Work) the five columns of the i-th row; for no rows the slice is empty (and not nil), and
there is no error. -/
theorem List_rows_decoded {σ : Type} (S : Store σ) (s : σ) (offset limit : Int)
    (rows : List Row)
    (h : (S.Query s listCmd (listArgs offset limit)).1 = .ok (rows.map Except.ok)) :
    ∃ persons : Persons, (repository.List S s offset limit).1 = (some persons, none) ∧
      persons.length = rows.length ∧
      (∀ (i : Nat) (person : Person) (row : Row), persons[i]? = some person →
        rows[i]? = some row →
        (person.ID, person.Name, person.Age, person.Address, person.Work) = row) ∧
      (rows = [] → persons = []) := by
  refine ⟨rows.map Row.toPerson, ?_, by simp, ?_, ?_⟩
  · rw [List_query_ok S s offset limit _ h, listLoop_ok]
    simp
  · intro i person row hp hr
    rw [List.getElem?_map, hr] at hp
    simp only [Option.map_some', Option.some.injEq] at hp
    subst hp
    rfl
  · intro hr
    simp [hr]

/-- C10, on the three rows of the test `TestList` and on an empty table. -/
theorem List_rows_decoded_witness :
    (∃ persons : Persons,
      (repository.List (recorder (.error ErrNoRows)
        (.ok ([(1, "Johnny", 22, "Moscow, Red Square", "Yandex"),
          (2, "Den", 22, "Moscow, Red Square", "Yandex"),
          (3, "Ken", 22, "Moscow, Red Square", "Yandex")].map Except.ok)) (.ok 0)) [] 0 0).1 =
        (some persons, none) ∧
      persons.length = [((1 : Int), "Johnny", (22 : Int), "Moscow, Red Square", "Yandex"),
          (2, "Den", 22, "Moscow, Red Square", "Yandex"),
          (3, "Ken", 22, "Moscow, Red Square", "Yandex")].length ∧
      (∀ (i : Nat) (person : Person) (row : Row), persons[i]? = some person →
        [((1 : Int), "Johnny", (22 : Int), "Moscow, Red Square", "Yandex"),
          (2, "Den", 22, "Moscow, Red Square", "Yandex"),
          (3, "Ken", 22, "Moscow, Red Square", "Yandex")][i]? = some row →
        (person.ID, person.Name, person.Age, person.Address, person.Work) = row) ∧
      ([((1 : Int), "Johnny", (22 : Int), "Moscow, Red Square", "Yandex"),
          (2, "Den", 22, "Moscow, Red Square", "Yandex"),
          (3, "Ken", 22, "Moscow, Red Square", "Yandex")] = [] → persons = [])) ∧
    (∃ persons : Persons,
      (repository.List (recorder (.error ErrNoRows) (.ok ([].map Except.ok)) (.ok 0)) [] 0 0).1 =
        (some persons, none) ∧
      persons.length = ([] : List Row).length ∧
      (∀ (i : Nat) (person : Person) (row : Row), persons[i]? = some person →
        ([] : List Row)[i]? = some row →
        (person.ID, person.Name, person.Age, person.Address, person.Work) = row) ∧
      (([] : List Row) = [] → persons = [])) :=
  ⟨List_rows_decoded (recorder (.error ErrNoRows)
      (.ok ([(1, "Johnny", 22, "Moscow, Red Square", "Yandex"),
        (2, "Den", 22, "Moscow, Red Square", "Yandex"),
        (3, "Ken", 22, "Moscow, Red Square", "Yandex")].map Except.ok)) (.ok 0)) [] 0 0
      [(1, "Johnny", 22, "Moscow, Red Square", "Yandex"),
        (2, "Den", 22, "Moscow, Red Square", "Yandex"),
        (3, "Ken", 22, "Moscow, Red Square", "Yandex")] rfl,
    List_rows_decoded (recorder (.error ErrNoRows) (.ok ([].map Except.ok)) (.ok 0)) [] 0 0 [] rfl⟩

theorem Create_ok {σ : Type} (S : Store σ) (s : σ) (params : CreateParams) (row : Row)
    (h : (S.QueryRow s createCmd [Arg.str params.Name, Arg.int params.Age,
      Arg.str params.Address, Arg.str params.Work]).1 = .ok row) :
    (repository.Create S s params).1 = (some (Row.toPerson row), none) := by
  unfold repository.Create
  rcases hq : S.QueryRow s createCmd [Arg.str params.Name, Arg.int params.Age,
      Arg.str params.Address, Arg.str params.Work] with ⟨r, s1⟩
  rw [hq] at h
  simp only at h
  subst h
  rcases row with ⟨c1, c2, c3, c4, c5⟩
  simp [scanPerson, Row.toPerson]

theorem Create_recorder (row : Except GoError Row) (rows : Except GoError Rows)
    (result : Except GoError Int) (log : List Call) (params : CreateParams) :
    (repository.Create (recorder row rows result) log params).2 =
      log ++ [(createCmd, [Arg.str params.Name, Arg.int params.Age, Arg.str params.Address,
        Arg.str params.Work])] := by
  unfold repository.Create
  simp only [recorder]
  cases hs : scanPerson row Person.zero with
  | mk person err => cases err <;> rfl

/-- C11: `Create` hands to the store the insert statement, whose columns are name, age,
address, work and whose values are `$1` to `$4`, with exactly the four arguments name, age,
address, work in this order; when the store answers with a row, `Create` returns no error
and the Person whose (ID, Name, Age, Address, Work) are the five columns of the row, so that
for a row that echoes the submitted values the four other fields are the submitted ones. -/
theorem Create_binds_and_decodes (params : CreateParams) :
    (∀ (row : Except GoError Row) (rows : Except GoError Rows) (result : Except GoError Int)
        (log : List Call),
      (repository.Create (recorder row rows result) log params).2 =
        log ++ [(createCmd, [Arg.str params.Name, Arg.int params.Age, Arg.str params.Address,
          Arg.str params.Work])]) ∧
    "INSERT INTO persons (name, age, address, work) \n\tVALUES ($1, $2, $3, $4)".toList <:+:
      createCmd.toList ∧
    (∀ (σ : Type) (S : Store σ) (s : σ) (row : Row),
      (S.QueryRow s createCmd [Arg.str params.Name, Arg.int params.Age,
        Arg.str params.Address, Arg.str params.Work]).1 = .ok row →
      ∃ person, (repository.Create S s params).1 = (some person, none) ∧
        (person.ID, person.Name, person.Age, person.Address, person.Work) = row) ∧
    (∀ (σ : Type) (S : Store σ) (s : σ) (id : Int),
      (S.QueryRow s createCmd [Arg.str params.Name, Arg.int params.Age,
        Arg.str params.Address, Arg.str params.Work]).1 =
        .ok (id, params.Name, params.Age, params.Address, params.Work) →
      ∃ person, (repository.Create S s params).1 = (some person, none) ∧ person.ID = id ∧
        person.Name = params.Name ∧ person.Age = params.Age ∧
        person.Address = params.Address ∧ person.Work = params.Work) := by
  refine ⟨fun row rows result log => Create_recorder row rows result log params, by decide,
    ?_, ?_⟩
  · intro σ S s row hq
    exact ⟨_, Create_ok S s params row hq, rfl⟩
  · intro σ S s id hq
    exact ⟨_, Create_ok S s params _ hq, rfl, rfl, rfl, rfl, rfl⟩

/-- C11, on the request and the row of the test `TestCreate`. -/
theorem Create_binds_and_decodes_witness :
    (∃ person, (repository.Create (recorder (.ok (1, "Johnny", 22, "Moscow, Red Square", "Yandex"))
        (.ok []) (.ok 0)) [] ⟨"Johnny", 22, "Moscow, Red Square", "Yandex"⟩).1 =
        (some person, none) ∧
      (person.ID, person.Name, person.Age, person.Address, person.Work) =
        (1, "Johnny", 22, "Moscow, Red Square", "Yandex")) ∧
    (∃ person, (repository.Create (recorder (.ok (1, "Johnny", 22, "Moscow, Red Square", "Yandex"))
        (.ok []) (.ok 0)) [] ⟨"Johnny", 22, "Moscow, Red Square", "Yandex"⟩).1 =
        (some person, none) ∧ person.ID = 1 ∧ person.Name = "Johnny" ∧ person.Age = 22 ∧
        person.Address = "Moscow, Red Square" ∧ person.Work = "Yandex") :=
  ⟨(Create_binds_and_decodes ⟨"Johnny", 22, "Moscow, Red Square", "Yandex"⟩).2.2.1 (List Call)
      (recorder (.ok (1, "Johnny", 22, "Moscow, Red Square", "Yandex")) (.ok []) (.ok 0)) []
      (1, "Johnny", 22, "Moscow, Red Square", "Yandex") rfl,
    (Create_binds_and_decodes ⟨"Johnny", 22, "Moscow, Red Square", "Yandex"⟩).2.2.2 (List Call)
      (recorder (.ok (1, "Johnny", 22, "Moscow, Red Square", "Yandex")) (.ok []) (.ok 0)) []
      1 rfl⟩

theorem updateCall_isSome (params : PartialUpdateParams)
    (h : 1 ≤ (presentFields params).length) :
    ∃ (cmd : String) (args : List Arg), updateCall params = some (cmd, args) := by
  rcases params with ⟨id, name, age, address, work⟩
  rcases name with _ | name <;> rcases age with _ | age <;> rcases address with _ | address <;>
    rcases work with _ | work <;>
    first
      | (exfalso; simp [presentFields, Field.supplied] at h; done)
      | exact ⟨_, _, rfl⟩

theorem Is_Wrap_ErrDb_notFound (message : String) :
    Is (Wrap ErrDb message) ErrPersonNotFound = false := by
  simp [Wrap, Is]

theorem Is_Wrap_notFound_ErrDb (message : String) :
    Is (Wrap ErrPersonNotFound message) ErrDb = false := by
  simp [Wrap, Is]

/-- C14: with at least one field present, `PartialUpdate` calls the store, and when the
update returns no rows (the `Scan` fails with an error of the kind of `sql.ErrNoRows`) it
returns an error of the store-failure kind that is not of the not-found kind; `Get`, when its
select returns no rows, returns an error of the not-found kind that is not of the
store-failure kind, and `Delete`, when it affects no rows, returns `ErrPersonNotFound`. -/
theorem PartialUpdate_absent_id_ErrDb (params : PartialUpdateParams)
    (h : 1 ≤ (presentFields params).length) :
    (∃ (cmd : String) (args : List Arg), updateCall params = some (cmd, args) ∧
      ∀ (σ : Type) (S : Store σ) (s : σ) (e : GoError),
        (S.QueryRow s cmd args).1 = .error e → Is e ErrNoRows = true →
        ∃ err, (repository.PartialUpdate S s params).1 = (none, some err) ∧
          Is err ErrDb = true ∧ Is err ErrPersonNotFound = false) ∧
    (∀ (σ : Type) (S : Store σ) (s : σ) (e : GoError),
      (S.QueryRow s getCmd [Arg.int64 params.ID]).1 = .error e → Is e ErrNoRows = true →
      ∃ err, (repository.Get S s params.ID).1 = (none, some err) ∧
        Is err ErrPersonNotFound = true ∧ Is err ErrDb = false) ∧
    (∀ (σ : Type) (S : Store σ) (s : σ),
      (S.Exec s deleteCmd [Arg.int64 params.ID]).1 = .ok 0 →
      (repository.Delete S s params.ID).1 = some ErrPersonNotFound) := by
  refine ⟨?_, ?_, ?_⟩
  · obtain ⟨cmd, args, hc⟩ := updateCall_isSome params h
    refine ⟨cmd, args, hc, ?_⟩
    intro σ S s e hq _
    exact ⟨_, PartialUpdate_error S s params cmd args e hc hq, Is_Wrap_self _ _,
      Is_Wrap_ErrDb_notFound _⟩
  · intro σ S s e hq hn
    refine ⟨_, Get_error S s params.ID e hq, ?_, ?_⟩
    · simp only [hn, if_true]
      exact Is_Wrap_self _ _
    · simp only [hn, if_true]
      exact Is_Wrap_notFound_ErrDb _
  · intro σ S s hq
    rw [Delete_eq, hq]
    rfl

/-- C14, for an update of the age of id 3 on a store in which id 3 has no row. -/
theorem PartialUpdate_absent_id_ErrDb_witness :
    (∃ err, (repository.PartialUpdate (recorder (.error ErrNoRows) (.ok []) (.ok 0)) []
        ⟨3, none, some 23, none, none⟩).1 = (none, some err) ∧
      Is err ErrDb = true ∧ Is err ErrPersonNotFound = false) ∧
    (∃ err, (repository.Get (recorder (.error ErrNoRows) (.ok []) (.ok 0)) [] 3).1 =
        (none, some err) ∧ Is err ErrPersonNotFound = true ∧ Is err ErrDb = false) ∧
    (repository.Delete (recorder (.error ErrNoRows) (.ok []) (.ok 0)) [] 3).1 =
      some ErrPersonNotFound := by
  have h := PartialUpdate_absent_id_ErrDb ⟨3, none, some 23, none, none⟩ (by decide)
  refine ⟨?_, ?_, ?_⟩
  · obtain ⟨cmd, args, hc, hp⟩ := h.1
    exact hp (List Call) (recorder (.error ErrNoRows) (.ok []) (.ok 0)) [] ErrNoRows rfl
      (by decide)
  · exact h.2.1 (List Call) (recorder (.error ErrNoRows) (.ok []) (.ok 0)) [] ErrNoRows rfl
      (by decide)
  · exact h.2.2 (List Call) (recorder (.error ErrNoRows) (.ok []) (.ok 0)) [] rfl

/-! ## Lemmas on the handlers -/

/-- Every error of `ParseInt` is a `NumError` for its input. -/
theorem ParseInt_error (s : String) (e : GoError) (h : ParseInt s = .error e) :
    ∃ msg : String, e = NumError s msg := by
  unfold ParseInt at h
  split at h
  · exact ⟨_, (Except.error.inj h).symm⟩
  · simp only at h
    split at h
    · exact ⟨_, (Except.error.inj h).symm⟩
    · split at h
      · exact ⟨_, (Except.error.inj h).symm⟩
      · split at h
        · exact ⟨_, (Except.error.inj h).symm⟩
        · split at h
          · exact ⟨_, (Except.error.inj h).symm⟩
          · exact absurd h (by simp)

/-- A `NumError` is not a key of the classifier table, as it is or by its cause. -/
theorem NumError_unmapped (num msg : String) :
    GetHTTPCodeByError (NumError num msg) = (500, false) ∧
      classify (NumError num msg) = (500, false) :=
  ⟨rfl, rfl⟩

theorem list_limit_error {σ : Type} (S : Store σ) (s : σ) (limitValue offsetValue : String)
    (e : GoError) (hl : limitValue ≠ "") (h : ParseInt limitValue = .error e) :
    delivery.list S s limitValue offsetValue = (Outcome.HandleError e, s) := by
  unfold delivery.list
  simp [hl, h]

theorem list_offset_error {σ : Type} (S : Store σ) (s : σ) (limitValue offsetValue : String)
    (e : GoError) (ho : offsetValue ≠ "") (h : ParseInt offsetValue = .error e)
    (hl : limitValue = "" ∨ ∃ n, ParseInt limitValue = .ok n) :
    delivery.list S s limitValue offsetValue = (Outcome.HandleError e, s) := by
  unfold delivery.list
  rcases hl with hl | ⟨n, hn⟩
  · simp [hl, ho, h]
  · by_cases hl : limitValue = ""
    · simp [hl, ho, h]
    · simp [hl, hn, ho, h]

/-- C12: when the limit value of a list request, or its offset value after a limit value
that is absent or parses, fails to parse, the handler `list` hands the error of `ParseInt`
itself to `HandleError`; this error is no key of `httpCodes`, and its status is 500 with the
found flag false, looked up as it is or by its innermost cause, and so not 400. -/
theorem list_parse_failure_unmapped {σ : Type} (S : Store σ) (s : σ)
    (limitValue offsetValue : String) (e : GoError)
    (h : (limitValue ≠ "" ∧ ParseInt limitValue = .error e) ∨
      (offsetValue ≠ "" ∧ ParseInt offsetValue = .error e ∧
        (limitValue = "" ∨ ∃ n, ParseInt limitValue = .ok n))) :
    delivery.list S s limitValue offsetValue = (Outcome.HandleError e, s) ∧
      GetHTTPCodeByError e = (500, false) ∧ classify e = (500, false) ∧
      (GetHTTPCodeByError e).1 ≠ StatusBadRequest ∧ (classify e).1 ≠ StatusBadRequest := by
  have hnum : ∃ num msg : String, e = NumError num msg := by
    rcases h with ⟨_, h⟩ | ⟨_, h, _⟩
    · exact ⟨limitValue, ParseInt_error _ _ h⟩
    · exact ⟨offsetValue, ParseInt_error _ _ h⟩
  obtain ⟨num, msg, rfl⟩ := hnum
  refine ⟨?_, (NumError_unmapped num msg).1, (NumError_unmapped num msg).2, ?_, ?_⟩
  · rcases h with ⟨hl, h⟩ | ⟨ho, h, hl⟩
    · exact list_limit_error S s limitValue offsetValue _ hl h
    · exact list_offset_error S s limitValue offsetValue _ ho h hl
  · rw [(NumError_unmapped num msg).1]
    decide
  · rw [(NumError_unmapped num msg).2]
    decide

/-- C12, for the request `GET /persons?limit=abc`. -/
theorem list_parse_failure_unmapped_witness :
    delivery.list (recorder (.error ErrNoRows) (.ok []) (.ok 0)) [] "abc" "" =
        (Outcome.HandleError (NumError "abc" "invalid syntax"), []) ∧
      GetHTTPCodeByError (NumError "abc" "invalid syntax") = (500, false) ∧
      classify (NumError "abc" "invalid syntax") = (500, false) ∧
      (GetHTTPCodeByError (NumError "abc" "invalid syntax")).1 ≠ StatusBadRequest ∧
      (classify (NumError "abc" "invalid syntax")).1 ≠ StatusBadRequest :=
  list_parse_failure_unmapped (recorder (.error ErrNoRows) (.ok []) (.ok 0)) [] "abc" ""
    (NumError "abc" "invalid syntax") (Or.inl ⟨by decide, rfl⟩)

/-- C13: for a PATCH request whose id parses and whose body supplies none of name, age,
address, work, `PartialUpdate` returns a nil Person and a nil error, and the handler
`partialUpdate` goes on to `newGetResponse` with this nil Person, which reads its fields:
the handler ends in a nil pointer dereference, on every store and without a call on it. -/
theorem partialUpdate_no_fields_nil_dereference {σ : Type} (S : Store σ) (s : σ)
    (idVar : String) (personID : Int) (h : ParseInt idVar = .ok personID) :
    (repository.PartialUpdate S s ⟨personID, none, none, none, none⟩).1 = (none, none) ∧
      newGetResponse none = none ∧
      delivery.partialUpdate S s idVar (.ok (some ⟨none, none, none, none⟩)) =
        (Outcome.nilDereference, s) := by
  have hp : repository.PartialUpdate S s ⟨personID, none, none, none, none⟩ =
      ((none, none), s) := PartialUpdate_none S s _ rfl
  refine ⟨by rw [hp], rfl, ?_⟩
  unfold delivery.partialUpdate
  simp [h, hp, newGetResponse]

/-- C13, for the request `PATCH /persons/7` with the body `{}`. -/
theorem partialUpdate_no_fields_nil_dereference_witness :
    (repository.PartialUpdate (recorder (.ok (7, "Johnny", 22, "Moscow", "Yandex")) (.ok [])
        (.ok 1)) [] ⟨7, none, none, none, none⟩).1 = (none, none) ∧
      newGetResponse none = none ∧
      delivery.partialUpdate (recorder (.ok (7, "Johnny", 22, "Moscow", "Yandex")) (.ok [])
        (.ok 1)) [] "7" (.ok (some ⟨none, none, none, none⟩)) = (Outcome.nilDereference, []) :=
  partialUpdate_no_fields_nil_dereference
    (recorder (.ok (7, "Johnny", 22, "Moscow", "Yandex")) (.ok []) (.ok 1)) [] "7" 7 rfl

/-! ## The repository on a store as `database/sql` reports it -/

theorem read_Query_error {σ : Type} (db : SqlDB σ) (s : σ) (cmd : String) (args : List Arg)
    (e : GoError) (h : (db.Query s cmd args).1 = .error e) :
    (db.read.Query s cmd args).1 = .error e := by
  simp only [SqlDB.read]
  rcases hq : db.Query s cmd args with ⟨r, s1⟩
  rw [hq] at h
  simp only at h
  subst h
  rfl

theorem read_Query_ok {σ : Type} (db : SqlDB σ) (s : σ) (cmd : String) (args : List Arg)
    (rows : SqlRows) (h : (db.Query s cmd args).1 = .ok rows) :
    (db.read.Query s cmd args).1 = .ok rows.rows := by
  simp only [SqlDB.read]
  rcases hq : db.Query s cmd args with ⟨r, s1⟩
  rw [hq] at h
  simp only at h
  subst h
  rfl

theorem read_Exec_error {σ : Type} (db : SqlDB σ) (s : σ) (cmd : String) (args : List Arg)
    (e : GoError) (h : (db.Exec s cmd args).1 = .error e) :
    (db.read.Exec s cmd args).1 = .error e := by
  simp only [SqlDB.read]
  rcases hq : db.Exec s cmd args with ⟨r, s1⟩
  rw [hq] at h
  simp only at h
  subst h
  rfl

theorem read_Exec_ok {σ : Type} (db : SqlDB σ) (s : σ) (cmd : String) (args : List Arg)
    (result : SqlResult) (h : (db.Exec s cmd args).1 = .ok result) :
    (db.read.Exec s cmd args).1 = .ok result.RowsAffected.1 := by
  simp only [SqlDB.read]
  rcases hq : db.Exec s cmd args with ⟨r, s1⟩
  rw [hq] at h
  simp only at h
  subst h
  rfl

/-- C9, as amended: for each of `Create`, `Get`, `List`, `PartialUpdate` and `Delete`, when
the call the method makes on the store (or, for `List`, the `Scan` of a row) fails with
the error `e`, the method returns an error that is a translation of `e`: of the
store-failure, not-found or already-exists kind under `errors.Is`, not the value `e` itself,
and of the store-failure kind unless `e` is of the kind of `sql.ErrNoRows`. The error of
`RowsAffected()` is dropped by `Delete`, which decides on the count alone: not found for a
count of zero and no error otherwise. -/
theorem reported_failure_translated {σ : Type} (db : SqlDB σ) (s : σ) (e : GoError) :
    (∀ params : CreateParams,
      (db.QueryRow s createCmd [Arg.str params.Name, Arg.int params.Age,
        Arg.str params.Address, Arg.str params.Work]).1 = .error e →
      ∃ err, (repository.Create db.read s params).1 = (none, some err) ∧ Translated e err) ∧
    (∀ id : Int, (db.QueryRow s getCmd [Arg.int64 id]).1 = .error e →
      ∃ err, (repository.Get db.read s id).1 = (none, some err) ∧ Translated e err) ∧
    (∀ offset limit : Int, (db.Query s listCmd (listArgs offset limit)).1 = .error e →
      ∃ err, (repository.List db.read s offset limit).1 = (none, some err) ∧
        Translated e err) ∧
    (∀ (offset limit : Int) (pre : List Row) (post : Rows) (rowsErr : Option GoError),
      (db.Query s listCmd (listArgs offset limit)).1 =
        .ok ⟨pre.map Except.ok ++ Except.error e :: post, rowsErr⟩ →
      ∃ err, (repository.List db.read s offset limit).1 = (none, some err) ∧
        Translated e err) ∧
    (∀ (params : PartialUpdateParams) (cmd : String) (args : List Arg),
      updateCall params = some (cmd, args) → (db.QueryRow s cmd args).1 = .error e →
      ∃ err, (repository.PartialUpdate db.read s params).1 = (none, some err) ∧
        Translated e err) ∧
    (∀ id : Int, (db.Exec s deleteCmd [Arg.int64 id]).1 = .error e →
      ∃ err, (repository.Delete db.read s id).1 = some err ∧ Translated e err) ∧
    (∀ (id n : Int) (dropped : Option GoError),
      (db.Exec s deleteCmd [Arg.int64 id]).1 = .ok ⟨(n, dropped)⟩ →
      (repository.Delete db.read s id).1 = if n = 0 then some ErrPersonNotFound else none) := by
  have hr := received_error_translated db.read s e
  refine ⟨hr.1, hr.2.1, ?_, ?_, hr.2.2.2.2.1, ?_, ?_⟩
  · intro offset limit hq
    exact hr.2.2.1 offset limit (read_Query_error db s _ _ e hq)
  · intro offset limit pre post rowsErr hq
    exact hr.2.2.2.1 offset limit pre post (read_Query_ok db s _ _ _ hq)
  · intro id hq
    exact hr.2.2.2.2.2 id (read_Exec_error db s _ _ e hq)
  · intro id n dropped hq
    rw [Delete_eq, read_Exec_ok db s _ _ _ hq]

/-- C9 as amended, on a store whose every call fails with a driver error, for `List` on a
store whose second row fails to scan, and for `Delete` on a store whose `RowsAffected()`
gives the count 1 and an error. -/
theorem reported_failure_translated_witness :
    (∃ err, (repository.Create (sqlmock (.error (other "connection refused"))
        (.error (other "connection refused")) (.error (other "connection refused"))).read []
        ⟨"Johnny", 22, "Moscow", "Yandex"⟩).1 = (none, some err) ∧
      Translated (other "connection refused") err) ∧
    (∃ err, (repository.Get (sqlmock (.error (other "connection refused"))
        (.error (other "connection refused")) (.error (other "connection refused"))).read []
        3).1 = (none, some err) ∧ Translated (other "connection refused") err) ∧
    (∃ err, (repository.List (sqlmock (.error (other "connection refused"))
        (.error (other "connection refused")) (.error (other "connection refused"))).read []
        0 0).1 = (none, some err) ∧ Translated (other "connection refused") err) ∧
    (∃ err, (repository.List (sqlmock (.error (other "connection refused"))
        (.ok ⟨[.ok (1, "Johnny", 22, "Moscow", "Yandex"), .error (other "connection refused")],
          none⟩)
        (.error (other "connection refused"))).read [] 0 0).1 = (none, some err) ∧
      Translated (other "connection refused") err) ∧
    (∃ err, (repository.PartialUpdate (sqlmock (.error (other "connection refused"))
        (.error (other "connection refused")) (.error (other "connection refused"))).read []
        ⟨3, none, some 23, none, none⟩).1 = (none, some err) ∧
      Translated (other "connection refused") err) ∧
    (∃ err, (repository.Delete (sqlmock (.error (other "connection refused"))
        (.error (other "connection refused")) (.error (other "connection refused"))).read []
        3).1 = some err ∧ Translated (other "connection refused") err) ∧
    (repository.Delete (sqlmock (.error (other "connection refused"))
        (.error (other "connection refused"))
        (.ok ⟨(1, some (other "connection refused"))⟩)).read [] 3).1 =
      if (1 : Int) = 0 then some ErrPersonNotFound else none :=
  ⟨(reported_failure_translated _ [] (other "connection refused")).1
      ⟨"Johnny", 22, "Moscow", "Yandex"⟩ rfl,
    (reported_failure_translated _ [] (other "connection refused")).2.1 3 rfl,
    (reported_failure_translated _ [] (other "connection refused")).2.2.1 0 0 rfl,
    (reported_failure_translated (sqlmock (.error (other "connection refused"))
        (.ok ⟨[.ok (1, "Johnny", 22, "Moscow", "Yandex"), .error (other "connection refused")],
          none⟩)
        (.error (other "connection refused"))) [] (other "connection refused")).2.2.2.1 0 0
      [(1, "Johnny", 22, "Moscow", "Yandex")] [] none rfl,
    (reported_failure_translated _ [] (other "connection refused")).2.2.2.2.1
      ⟨3, none, some 23, none, none⟩ _ _ rfl rfl,
    (reported_failure_translated _ [] (other "connection refused")).2.2.2.2.2.1 3 rfl,
    (reported_failure_translated (sqlmock (.error (other "connection refused"))
        (.error (other "connection refused"))
        (.ok ⟨(1, some (other "connection refused"))⟩)) [] (other "connection refused")).2.2.2.2.2.2
      3 1 (some (other "connection refused")) rfl⟩

/-- C9, as stated, fails: on a store whose `RowsAffected()` reports the failure
`e = other "rows affected unavailable"` with the count 0, `Delete` returns
`ErrPersonNotFound`, which is no translation of `e` since `e` is not of the kind of
`sql.ErrNoRows` and the returned error is not of the store-failure kind; and on a store
whose iteration fails after the first row (`rows.Err()` holds `other "connection reset"`),
`List` returns the one row and no error at all. -/
theorem reported_failure_translated_counterexample :
    (repository.Delete (sqlmock (.error ErrNoRows) (.ok ⟨[], none⟩)
        (.ok ⟨(0, some (other "rows affected unavailable"))⟩)).read [] 3).1 =
      some ErrPersonNotFound ∧
    (¬ ∃ err, (repository.Delete (sqlmock (.error ErrNoRows) (.ok ⟨[], none⟩)
        (.ok ⟨(0, some (other "rows affected unavailable"))⟩)).read [] 3).1 = some err ∧
      Translated (other "rows affected unavailable") err) ∧
    (repository.List (sqlmock (.error ErrNoRows)
        (.ok ⟨[.ok (1, "Johnny", 22, "Moscow", "Yandex")], some (other "connection reset")⟩)
        (.ok ⟨(0, none)⟩)).read [] 0 0).1 =
      (some [⟨1, "Johnny", 22, "Moscow", "Yandex"⟩], none) ∧
    (¬ ∃ err, (repository.List (sqlmock (.error ErrNoRows)
        (.ok ⟨[.ok (1, "Johnny", 22, "Moscow", "Yandex")], some (other "connection reset")⟩)
        (.ok ⟨(0, none)⟩)).read [] 0 0).1.2 = some err ∧
      Translated (other "connection reset") err) := by
  refine ⟨rfl, ?_, rfl, ?_⟩
  · rintro ⟨err, herr, htr⟩
    have h1 : err = ErrPersonNotFound := by
      have h2 : (repository.Delete (sqlmock (.error ErrNoRows) (.ok ⟨[], none⟩)
          (.ok ⟨(0, some (other "rows affected unavailable"))⟩)).read [] 3).1 =
          some ErrPersonNotFound := rfl
      rw [h2] at herr
      exact (Option.some.inj herr).symm
    subst h1
    have h3 := htr.2.2 (by decide)
    exact absurd h3 (by decide)
  · rintro ⟨err, herr, _⟩
    have h2 : (repository.List (sqlmock (.error ErrNoRows)
        (.ok ⟨[.ok (1, "Johnny", 22, "Moscow", "Yandex")], some (other "connection reset")⟩)
        (.ok ⟨(0, none)⟩)).read [] 0 0).1.2 = none := rfl
    rw [h2] at herr
    exact absurd herr (by simp)

end DsLab1
